import Mathlib

/-!
Verification development for the Fedorable maintenance GUI
(`src/main.py` and `src/fedorable-gui/src/main.py`).

The two Python files are two variants of the same application window
`FedorableMainWindow`.  The definitions below are a shallow embedding of the
parts of that window relevant to the Task Run Orchestrator: the command
builder `build_command`, the run-button handler `on_run_clicked`, the
finalization callback `_finalize_run`, the completion callback
`_on_process_communication_finished` (src/main.py), the exit-status callback
`process_finished`, and the incremental stream reader `handle_stream`
(fedorable-gui variant, the one that is actually wired to the GLib watches).

Checkbox/switch states are modelled as functions from key to `Bool`; the
task and option catalogues are the literal ordered key lists of the two
Python dicts, which iterate in insertion order.
-/

/-- Replaces each underscore by a hyphen: the embedding of Python's
`key.replace('_', '-')` used by `build_command`. -/
def dasherize (s : String) : String :=
  String.mk (s.data.map (fun c => if c = '_' then '-' else c))

/-- Task catalogue, in the insertion (= iteration) order of the `tasks`
dict of `FedorableMainWindow.__init__` (identical in both variants). -/
def taskKeys : List String :=
  ["update", "autoremove", "clean_dnf", "clean_kernels", "clean_user_cache",
   "clean_journal", "clean_temp", "clean_coredumps", "update_grub",
   "clean_flatpak", "optimize_rpmdb", "reset_failed_units", "update_fonts",
   "trim", "optimize_fstrim", "clean_snap", "update_mandb", "check_services"]

/-- Option catalogue, in the insertion (= iteration) order of the `options`
dict of `FedorableMainWindow.__init__` (identical in both variants). -/
def optionKeys : List String :=
  ["perform_timeshift", "perform_backup", "perform_update_firmware",
   "perform_clear_history", "yes", "dry_run", "email_report", "check_only"]

/-- Boolean string-prefix test, the embedding of Python's
`key.startswith("perform_")`. -/
def strStartsWith (s p : String) : Bool :=
  List.isPrefixOf p.data s.data

/-- Embedding of `FEDORABLE_SCRIPT_PATH = os.path.join(dirname, "fedorable.sh")`,
parameterised by the directory of the Python file. -/
def scriptPath (dir : String) : String :=
  dir ++ "/fedorable.sh"

/-- The flag (if any) emitted for one enabled option key: the embedding of the
if/elif chain in the options loop of `build_command`. -/
def optionFlag (k : String) : Option String :=
  if k = "yes" then some "--yes"
  else if k = "dry_run" then some "--dry-run"
  else if k = "email_report" then some "--email-report"
  else if k = "check_only" then some "--check-only"
  else if strStartsWith k "perform_" then some ("--" ++ dasherize k)
  else none

/-- Negation flag emitted for a disabled task key:
`f"--no-{key.replace('_', '-')}"`. -/
def noFlag (k : String) : String :=
  "--no-" ++ dasherize k

/-- Task segment of the command: one `--no-...` flag per disabled task, in
catalogue order (the first loop of `build_command`). -/
def taskFlags (tasks : String → Bool) : List String :=
  taskKeys.filterMap (fun k => if tasks k then none else some (noFlag k))

/-- Option segment of the command: one flag per enabled, recognised option, in
catalogue order (the second loop of `build_command`). -/
def optFlags (options : String → Bool) : List String :=
  optionKeys.filterMap (fun k => if options k then optionFlag k else none)

/-- Embedding of `FedorableMainWindow.build_command`: the elevation program and
script path first, then the task flags, then the option flags. -/
def build_command (dir : String) (tasks options : String → Bool) : List String :=
  ["pkexec", scriptPath dir] ++ taskFlags tasks ++ optFlags options

/-- Modelled from the spec only in name: this is the option-flag rule as the
spec states it (a fixed table of literal spellings for the special keys, then
the `perform_` prefix rule, anything else emits nothing), written independently
of the source's if/elif chain so that `build_command` can be compared with it. -/
def optionFlagSpec (k : String) : Option String :=
  match [("yes", "--yes"), ("dry_run", "--dry-run"),
         ("email_report", "--email-report"),
         ("check_only", "--check-only")].lookup k with
  | some fl => some fl
  | none => if strStartsWith k "perform_" then some ("--" ++ dasherize k) else none

/-- Output-view tag with which a chunk of text is appended (`stdout_tag` /
`stderr_tag` of the window). -/
inductive Tag where
  | stdoutTag
  | stderrTag
deriving DecidableEq, Repr

/-- Observable effects of the window's handlers, in the order they are
performed.  `verdict b c` marks an invocation of `_finalize_run(b, c)`: the
delivery of the final success/failure notification.  The statusbar text and
the trailer chunk that `_finalize_run` renders are listed after it.
`spawnAttempt` marks the call into `Gio.Subprocess.new` / `subprocess.Popen`
(an elevation prompt can only appear at such an event). -/
inductive Effect where
  | statusbar (text : String)
  | showErrorDialog (heading body : String)
  | clearOutput
  | appendChunk (text : String) (tag : Tag)
  | setControls (sensitive : Bool)
  | spawnAttempt (command : List String)
  | verdict (succeeded : Bool) (exitCode : Int)
deriving DecidableEq, Repr

/-- Window state touched by the run orchestration: the stored process handle
(`self.process`, modelled by whether it is live), the output buffer content,
and the common sensitivity of the run button, the task checkboxes and the
option switches (`set_controls_sensitive` always sets them together). -/
structure GuiState where
  processLive : Bool
  outputBuffer : List (String × Tag)
  controlsSensitive : Bool
deriving DecidableEq, Repr

/-- Environment of one `on_run_clicked` invocation: the filesystem facts the
handler queries (`os.path.exists`, `os.access(..., X_OK)`), whether the
spawn call raises, and the configuration snapshot read from the widgets. -/
structure Env where
  scriptExists : Bool
  scriptExecutable : Bool
  spawnSucceeds : Bool
  dir : String
  tasks : String → Bool
  options : String → Bool

/-- Character-set test of Python's `shlex.quote`: `re.ASCII` word characters
plus at-sign, percent, plus, equals, colon, comma, dot, slash and hyphen. -/
def isShlexSafe (c : Char) : Bool :=
  c.isAlphanum || c = '_' || c = '@' || c = '%' || c = '+' || c = '=' ||
  c = ':' || c = ',' || c = '.' || c = '/' || c = '-'

/-- Single-quote character, written by code point to keep the file free of
quote-character literals. -/
def squote : String :=
  String.mk [Char.ofNat 39]

/-- Replaces every single quote by the 5-character escape used by
`shlex.quote` (quote, double quote, quote, double quote, quote). -/
def shQuoteBody (s : String) : String :=
  String.mk (s.data.foldr
    (fun c acc =>
      (if c = Char.ofNat 39 then
        [Char.ofNat 39, Char.ofNat 34, Char.ofNat 39, Char.ofNat 34, Char.ofNat 39]
      else [c]) ++ acc) [])

/-- Embedding of `shlex.quote`, used for the command echo line. -/
def shlexQuote (s : String) : String :=
  if s = "" then squote ++ squote
  else if s.data.all isShlexSafe then s
  else squote ++ shQuoteBody s ++ squote

/-- The `Running command: ...` line echoed into the output view. -/
def echoLine (command : List String) : String :=
  "Running command: " ++ String.intercalate " " (command.map shlexQuote) ++ "\n\n"

/-- Embedding of `FedorableMainWindow._finalize_run`: statusbar update, trailer
chunk appended to the buffer, controls re-enabled.  The `Effect.verdict` event
records the invocation itself (the final notification), followed by its
rendering. -/
def _finalize_run (st : GuiState) (success : Bool) (exitCode : Int) :
    GuiState × List Effect :=
  if success then
    ({ st with
        outputBuffer :=
          st.outputBuffer ++ [("\n--- Maintenance Finished Successfully ---\n", Tag.stdoutTag)],
        controlsSensitive := true },
     [Effect.verdict true exitCode,
      Effect.statusbar "Maintenance finished successfully.",
      Effect.appendChunk "\n--- Maintenance Finished Successfully ---\n" Tag.stdoutTag,
      Effect.setControls true])
  else
    ({ st with
        outputBuffer :=
          st.outputBuffer ++
            [("\n--- Maintenance Failed (Exit Code: " ++ toString exitCode ++ ") ---\n",
              Tag.stderrTag)],
        controlsSensitive := true },
     [Effect.verdict false exitCode,
      Effect.statusbar
        ("Maintenance failed (Exit Code: " ++ toString exitCode ++ "). Check output."),
      Effect.appendChunk
        ("\n--- Maintenance Failed (Exit Code: " ++ toString exitCode ++ ") ---\n")
        Tag.stderrTag,
      Effect.setControls true])

/-- Embedding of `FedorableMainWindow.on_run_clicked` (both variants share this
structure: busy check, existence check, executability check, then clear
output, statusbar, command echo, lock controls, spawn attempt; a raising spawn
is answered by an error dialog and `_finalize_run(False, -1)`). -/
def on_run_clicked (env : Env) (st : GuiState) : GuiState × List Effect :=
  if st.processLive then
    (st, [Effect.statusbar "Maintenance is already running."])
  else if !env.scriptExists then
    (st, [Effect.showErrorDialog "Error: Script not found"
            ("Cannot run: " ++ scriptPath env.dir)])
  else if !env.scriptExecutable then
    (st, [Effect.showErrorDialog "Error: Script not executable"
            ("Cannot run: " ++ scriptPath env.dir)])
  else
    let command := build_command env.dir env.tasks env.options
    let echo := echoLine command
    let st1 : GuiState :=
      { st with outputBuffer := [(echo, Tag.stdoutTag)], controlsSensitive := false }
    let effs : List Effect :=
      [Effect.clearOutput, Effect.statusbar "Output cleared.",
       Effect.statusbar "Starting maintenance...",
       Effect.appendChunk echo Tag.stdoutTag,
       Effect.setControls false,
       Effect.spawnAttempt command]
    if env.spawnSucceeds then
      ({ st1 with processLive := true }, effs)
    else
      let fin := _finalize_run st1 false (-1)
      (fin.1,
       effs ++
         Effect.showErrorDialog "Error Starting Process"
           "Could not launch the maintenance script." :: fin.2)

/-- The chunks `_on_process_communication_finished` appends for the two
collected streams (`if stdout_data: ... if stderr_data: ...`). -/
def outputChunks (stdout_data stderr_data : String) : List Effect :=
  (if stdout_data = "" then [] else [Effect.appendChunk stdout_data Tag.stdoutTag])
  ++ (if stderr_data = "" then [] else [Effect.appendChunk stderr_data Tag.stderrTag])

/-- Embedding of `FedorableMainWindow._on_process_communication_finished`
(src/main.py, normal path): `communicate_utf8_finish` has collected the two
complete streams, the handler appends them (stdout first, then stderr) and
only then calls `_finalize_run(exit_status == 0, exit_status)`; the `finally`
block clears the process handle. -/
def _on_process_communication_finished (st : GuiState)
    (stdout_data stderr_data : String) (exitStatus : Int) :
    GuiState × List Effect :=
  let st1 : GuiState :=
    { st with
        outputBuffer :=
          st.outputBuffer
            ++ (if stdout_data = "" then [] else [(stdout_data, Tag.stdoutTag)])
            ++ (if stderr_data = "" then [] else [(stderr_data, Tag.stderrTag)]) }
  let fin := _finalize_run st1 (exitStatus == 0) exitStatus
  ({ fin.1 with processLive := false },
   outputChunks stdout_data stderr_data ++ fin.2)

/-- Embedding of the C wait-status macro `WIFEXITED` (low 7 bits zero), as
used by Python's `os.WIFEXITED` on Linux. -/
def WIFEXITED (s : Nat) : Bool :=
  s % 128 == 0

/-- Embedding of the C wait-status macro `WEXITSTATUS` (bits 8..15). -/
def WEXITSTATUS (s : Nat) : Nat :=
  s / 256 % 256

/-- Success computation of `process_finished` (identical expression in both
variants): `os.WIFEXITED(status) and os.WEXITSTATUS(status) == 0`. -/
def process_finished_success (s : Nat) : Bool :=
  WIFEXITED s && WEXITSTATUS s == 0

/-- Exit value passed to `_finalize_run` by src/main.py's `process_finished`:
the exit code on normal exit, the sentinel `-1` when the process was
signaled. -/
def process_finished_exitVal (s : Nat) : Int :=
  if WIFEXITED s then (WEXITSTATUS s : Int) else -1

/-- Exit value passed to `_finalize_run` by the fedorable-gui variant's
`process_finished`: `os.WEXITSTATUS(status)` unconditionally. -/
def process_finished_exitVal_gui (s : Nat) : Int :=
  (WEXITSTATUS s : Int)

/-- Splits off the first line of a character stream, newline included; on a
stream without a newline (the end of a stream) the whole remainder is the
line.  This is what a `readline` on a `GLib.IOChannel` returns once a full
line or end-of-file is available. -/
def readLine : List Char → List Char × List Char
  | [] => ([], [])
  | c :: rest =>
    if c = '\n' then ([c], rest)
    else (c :: (readLine rest).1, (readLine rest).2)

/-- State of one watched output channel: the bytes the writer has put into the
pipe that are not yet read (`pending`), whether the write end is closed,
the chunks delivered so far in delivery order, whether the GLib watch is
still armed, and a ghost field recording everything ever written. -/
structure ChanState where
  pending : List Char
  closed : Bool
  delivered : List (List Char)
  watching : Bool
  written : List Char
deriving DecidableEq, Repr

/-- Events of one channel's history: the external process writes text, the
process side of the pipe closes, or the main loop dispatches the watch. -/
inductive ChanEvent where
  | write (s : List Char)
  | close
  | poll
deriving DecidableEq, Repr

/-- One step of the channel history.  A `poll` dispatches the fedorable-gui
`handle_stream` handler: the watch only fires when the poll condition (IN for
buffered data, HUP for a closed write end) is non-empty; `condition ==
GLib.IOCondition.HUP` — HUP alone, hence no buffered data — stops the watch;
otherwise the handler reads one line and schedules it for the sink.  A read
is deferred until a full line or end-of-file is available, which is when the
underlying `readline` returns. -/
def stepChan (c : ChanState) : ChanEvent → ChanState
  | ChanEvent.write s =>
    if c.closed then c
    else { c with pending := c.pending ++ s, written := c.written ++ s }
  | ChanEvent.close => { c with closed := true }
  | ChanEvent.poll =>
    if c.watching = false then c
    else if c.pending.isEmpty && !c.closed then c
    else if c.pending.isEmpty && c.closed then { c with watching := false }
    else if !(c.pending.contains '\n') && !c.closed then c
    else
      { c with pending := (readLine c.pending).2,
               delivered := c.delivered ++ [(readLine c.pending).1] }

/-- Channel before the run: empty pipe, open, watch armed. -/
def initChan : ChanState :=
  { pending := [], closed := false, delivered := [], watching := true, written := [] }

/-- The channel state after a history of events. -/
def runChan (t : List ChanEvent) : ChanState :=
  t.foldl stepChan initChan

/-- Invariant tying a channel state to its history: delivered text followed by
still-buffered text is exactly what was written, and the watch is only ever
dropped at end-of-stream with an empty buffer. -/
def ChanInv (c : ChanState) : Prop :=
  c.delivered.flatten ++ c.pending = c.written ∧
  (c.watching = false → c.pending = [] ∧ c.closed = true)

/-- Concrete channel history used to instantiate the round-trip theorem. -/
def chanTrace0 : List ChanEvent :=
  [ChanEvent.write "hi\nthe".toList, ChanEvent.poll,
   ChanEvent.write "re".toList, ChanEvent.close,
   ChanEvent.poll, ChanEvent.poll]

/-- Main-loop state of the fedorable-gui variant right after the child process
has exited: text still buffered in its stdout pipe, the wait status, the two
GLib sources (stream watch attached first, child watch second, both at
default priority), the queue of `GLib.idle_add` callbacks not yet run, and
the deliveries the output sink has observed, in order. -/
structure LoopState where
  pending : List Char
  closed : Bool
  status : Nat
  streamWatch : Bool
  childWatch : Bool
  idleQueue : List Effect
  sink : List Effect
deriving DecidableEq, Repr

/-- Whether the stream watch's poll condition (IN or HUP) is non-empty. -/
def streamReady (st : LoopState) : Bool :=
  st.streamWatch && (!st.pending.isEmpty || st.closed)

/-- Dispatch of the stream watch: `handle_stream` stops on HUP alone,
otherwise reads one line and queues `append_output` via `GLib.idle_add`. -/
def dispatchStreamWatch (st : LoopState) : LoopState :=
  if st.pending.isEmpty && st.closed then { st with streamWatch := false }
  else if !(st.pending.contains '\n') && !st.closed then st
  else
    { st with
        pending := (readLine st.pending).2,
        idleQueue :=
          st.idleQueue ++ [Effect.appendChunk (String.mk (readLine st.pending).1) Tag.stdoutTag] }

/-- Dispatch of the child watch: `process_finished` queues
`_finalize_run(success, os.WEXITSTATUS(status))` via `GLib.idle_add`; the
watch fires once. -/
def dispatchChildWatch (st : LoopState) : LoopState :=
  { st with
      childWatch := false,
      idleQueue :=
        st.idleQueue ++
          [Effect.verdict (process_finished_success st.status)
            (process_finished_exitVal_gui st.status)] }

/-- One iteration of the GLib main context: all ready default-priority sources
are dispatched, in attachment order (stream watch, then child watch); idle
callbacks, which run at a lower priority, are dispatched FIFO only when no
default-priority source is ready. -/
def loopIter (st : LoopState) : LoopState :=
  if streamReady st || st.childWatch then
    let st1 := if streamReady st then dispatchStreamWatch st else st
    if st1.childWatch then dispatchChildWatch st1 else st1
  else
    match st.idleQueue with
    | [] => st
    | e :: rest => { st with idleQueue := rest, sink := st.sink ++ [e] }

/-- Iterates the main loop a given number of times. -/
def runLoop : Nat → LoopState → LoopState
  | 0, st => st
  | n + 1, st => runLoop n (loopIter st)

/-- Concrete scenario: the child exited with status 0 after writing two lines
that are both still buffered in the pipe. -/
def cexStart : LoopState :=
  { pending := "a\nb\n".toList, closed := true, status := 0,
    streamWatch := true, childWatch := true, idleQueue := [], sink := [] }

/-! Helper lemmas about `filterMap`, `count` and `indexOf`. -/

theorem count_filterMap_zero {α β : Type} [DecidableEq β] (f : α → Option β) (v : β) :
    ∀ l : List α, (∀ x ∈ l, f x ≠ some v) → (l.filterMap f).count v = 0 := by
  intro l
  induction l with
  | nil => intro _; simp
  | cons a t ih =>
    intro h
    rw [List.filterMap_cons]
    cases hfa : f a with
    | none => exact ih (fun x hx => h x (List.mem_cons_of_mem a hx))
    | some w =>
      have hw : ¬ w = v := fun e => h a (List.mem_cons_self a t) (by rw [hfa, e])
      simp only [List.count_cons, ih (fun x hx => h x (List.mem_cons_of_mem a hx))]
      simp [hw]

theorem count_filterMap_one {α β : Type} [DecidableEq α] [DecidableEq β]
    (f : α → Option β) (v : β) :
    ∀ l : List α, l.Nodup → ∀ k, k ∈ l → f k = some v →
      (∀ x ∈ l, f x = some v → x = k) → (l.filterMap f).count v = 1 := by
  intro l
  induction l with
  | nil => intro _ k hk; exact absurd hk (List.not_mem_nil k)
  | cons a t ih =>
    intro hnd k hk hfk huniq
    rw [List.filterMap_cons]
    by_cases hak : a = k
    · subst hak
      have h0 : (t.filterMap f).count v = 0 := by
        apply count_filterMap_zero
        intro x hx hfx
        have hxk : x = a := huniq x (List.mem_cons_of_mem a hx) hfx
        subst hxk
        exact (List.nodup_cons.mp hnd).1 hx
      rw [hfk]
      simp [List.count_cons, h0]
    · have hk2 : k ∈ t := by
        rcases List.mem_cons.mp hk with h | h
        · exact absurd h.symm hak
        · exact h
      have ht : (t.filterMap f).count v = 1 :=
        ih (List.nodup_cons.mp hnd).2 k hk2 hfk
          (fun x hx hfx => huniq x (List.mem_cons_of_mem a hx) hfx)
      cases hfa : f a with
      | none => exact ht
      | some w =>
        have hw : ¬ w = v := fun e => hak (huniq a (List.mem_cons_self a t) (by rw [hfa, e]))
        simp only [List.count_cons, ht]
        simp [hw]

theorem indexOf_filterMap_lt {f : String → Option String} :
    ∀ (l : List String) (k k' A B : String),
      l.Nodup → k ∈ l → k' ∈ l → l.indexOf k < l.indexOf k' →
      f k = some A → f k' = some B →
      (∀ x ∈ l, ∀ w, f x = some w → (w = A → x = k) ∧ (w = B → x = k')) →
      (l.filterMap f).indexOf A < (l.filterMap f).indexOf B := by
  intro l
  induction l with
  | nil => intro k k' A B _ hk; exact absurd hk (List.not_mem_nil k)
  | cons a t ih =>
    intro k k' A B hnd hk hk' hlt hfk hfk' huniq
    by_cases hak : a = k
    · subst hak
      have hkk' : ¬ k' = a := by
        intro e
        subst e
        exact Nat.lt_irrefl _ hlt
      have hBA : ¬ A = B := by
        intro e
        exact hkk' ((huniq k' hk' B hfk').1 e.symm)
      simp only [List.filterMap_cons, hfk]
      rw [List.indexOf_cons_self, List.indexOf_cons_ne _ hBA]
      exact Nat.succ_pos _
    · by_cases hak' : a = k'
      · subst hak'
        rw [List.indexOf_cons_self] at hlt
        exact absurd hlt (Nat.not_lt_zero _)
      · have hk2 : k ∈ t := by
          rcases List.mem_cons.mp hk with h | h
          · exact absurd h.symm hak
          · exact h
        have hk'2 : k' ∈ t := by
          rcases List.mem_cons.mp hk' with h | h
          · exact absurd h.symm hak'
          · exact h
        have hlt2 : t.indexOf k < t.indexOf k' := by
          rw [List.indexOf_cons_ne t hak, List.indexOf_cons_ne t hak'] at hlt
          omega
        have IH := ih k k' A B (List.nodup_cons.mp hnd).2 hk2 hk'2 hlt2 hfk hfk'
          (fun x hx w hw => huniq x (List.mem_cons_of_mem a hx) w hw)
        cases hfa : f a with
        | none =>
          simp only [List.filterMap_cons, hfa]
          exact IH
        | some w =>
          have hwA : ¬ w = A := fun e => hak ((huniq a (List.mem_cons_self a t) w hfa).1 e)
          have hwB : ¬ w = B := fun e => hak' ((huniq a (List.mem_cons_self a t) w hfa).2 e)
          simp only [List.filterMap_cons, hfa]
          rw [List.indexOf_cons_ne _ hwA, List.indexOf_cons_ne _ hwB]
          omega

/-! Facts about the concrete catalogues, proved by evaluation. -/

theorem taskKeys_nodup : taskKeys.Nodup := by decide

theorem noFlag_inj : ∀ a ∈ taskKeys, ∀ b ∈ taskKeys, noFlag a = noFlag b → a = b := by decide

theorem noFlag_ne_pkexec : ∀ k ∈ taskKeys, noFlag k ≠ "pkexec" := by decide

theorem slash_not_in_noFlag : ∀ k ∈ taskKeys, '/' ∉ (noFlag k).data := by decide

theorem optionFlag_ne_noFlag :
    ∀ x ∈ optionKeys, ∀ k ∈ taskKeys, ∀ w, optionFlag x = some w → w ≠ noFlag k := by decide

theorem optionFlag_eq_spec : ∀ k ∈ optionKeys, optionFlag k = optionFlagSpec k := by decide

theorem scriptPath_ne_noFlag (dir : String) : ∀ k ∈ taskKeys, scriptPath dir ≠ noFlag k := by
  intro k hk h
  have h1 : '/' ∈ (scriptPath dir).data := by
    have hdata : (scriptPath dir).data = dir.data ++ ("/fedorable.sh").data := rfl
    rw [hdata]
    exact List.mem_append_right _ (by decide)
  rw [h] at h1
  exact slash_not_in_noFlag k hk h1

theorem count_prefix_zero (dir : String) (k : String) (hk : k ∈ taskKeys) :
    (["pkexec", scriptPath dir] : List String).count (noFlag k) = 0 := by
  rw [List.count_eq_zero]
  intro hmem
  rcases List.mem_cons.mp hmem with h | h
  · exact noFlag_ne_pkexec k hk h
  · rcases List.mem_cons.mp h with h2 | h2
    · exact scriptPath_ne_noFlag dir k hk h2.symm
    · exact List.not_mem_nil _ h2

theorem count_optFlags_zero (options : String → Bool) (k : String) (hk : k ∈ taskKeys) :
    (optFlags options).count (noFlag k) = 0 := by
  apply count_filterMap_zero
  intro x hx h
  by_cases ho : options x
  · rw [if_pos ho] at h
    exact optionFlag_ne_noFlag x hx k hk (noFlag k) h rfl
  · rw [if_neg ho] at h
    exact Option.noConfusion h

theorem count_taskFlags (tasks : String → Bool) (k : String) (hk : k ∈ taskKeys) :
    (taskFlags tasks).count (noFlag k) = if tasks k then 0 else 1 := by
  by_cases ht : tasks k
  · rw [if_pos ht]
    apply count_filterMap_zero
    intro x hx h
    by_cases htx : tasks x
    · rw [if_pos htx] at h
      exact Option.noConfusion h
    · rw [if_neg htx] at h
      have hxk : x = k := noFlag_inj x hx k hk (Option.some.inj h)
      subst hxk
      exact htx ht
  · rw [if_neg ht]
    apply count_filterMap_one _ _ taskKeys taskKeys_nodup k hk
    · rw [if_neg ht]
    · intro x hx h
      by_cases htx : tasks x
      · rw [if_pos htx] at h
        exact Option.noConfusion h
      · rw [if_neg htx] at h
        exact noFlag_inj x hx k hk (Option.some.inj h)

/-- Claim C1: for every configuration snapshot and every task key `k` of the
catalogue, if the snapshot enables `k` then `build_command` emits no
`--no-<dasherized-k>` flag, and if it disables `k` then the vector contains
exactly one such flag, and that flag comes before the flag of any
(necessarily disabled) task key later in catalogue order. -/
theorem build_command_task_flags (dir : String) (tasks options : String → Bool)
    (k : String) (hk : k ∈ taskKeys) :
    (tasks k = true → (build_command dir tasks options).count (noFlag k) = 0) ∧
    (tasks k = false →
      (build_command dir tasks options).count (noFlag k) = 1 ∧
      ∀ k', k' ∈ taskKeys → taskKeys.indexOf k < taskKeys.indexOf k' → tasks k' = false →
        (build_command dir tasks options).indexOf (noFlag k) <
          (build_command dir tasks options).indexOf (noFlag k')) := by
  have hcount : (build_command dir tasks options).count (noFlag k)
      = (if tasks k then 0 else 1) := by
    show ((["pkexec", scriptPath dir] ++ taskFlags tasks) ++ optFlags options).count (noFlag k)
      = (if tasks k then 0 else 1)
    rw [List.count_append, List.count_append, count_prefix_zero dir k hk,
      count_taskFlags tasks k hk, count_optFlags_zero options k hk]
    omega
  constructor
  · intro ht
    rw [hcount, ht]
    simp
  · intro ht
    constructor
    · rw [hcount, ht]
      simp
    · intro k' hk' hlt ht'
      have hb : build_command dir tasks options
          = "pkexec" :: scriptPath dir :: (taskFlags tasks ++ optFlags options) := rfl
      have hmemA : noFlag k ∈ taskFlags tasks :=
        List.mem_filterMap.mpr ⟨k, hk, by rw [if_neg (by simp [ht])]⟩
      have hmemB : noFlag k' ∈ taskFlags tasks :=
        List.mem_filterMap.mpr ⟨k', hk', by rw [if_neg (by simp [ht'])]⟩
      have hk'' : k' ∈ taskKeys := hk'
      have htf : (taskFlags tasks).indexOf (noFlag k) < (taskFlags tasks).indexOf (noFlag k') := by
        simp only [taskFlags]
        apply indexOf_filterMap_lt taskKeys k k' (noFlag k) (noFlag k')
          taskKeys_nodup hk hk'' hlt
        · rw [if_neg (by simp [ht])]
        · rw [if_neg (by simp [ht'])]
        · intro x hx w hw
          by_cases htx : tasks x
          · rw [if_pos htx] at hw
            exact Option.noConfusion hw
          · rw [if_neg htx] at hw
            have hwx : w = noFlag x := (Option.some.inj hw).symm
            subst hwx
            constructor
            · intro e
              exact noFlag_inj x hx k hk e
            · intro e
              exact noFlag_inj x hx k' hk'' e
      rw [hb, List.indexOf_cons_ne _ (Ne.symm (noFlag_ne_pkexec k hk)),
        List.indexOf_cons_ne _ (Ne.symm (fun e => scriptPath_ne_noFlag dir k hk e.symm)),
        List.indexOf_cons_ne _ (Ne.symm (noFlag_ne_pkexec k' hk'')),
        List.indexOf_cons_ne _ (Ne.symm (fun e => scriptPath_ne_noFlag dir k' hk'' e.symm)),
        List.indexOf_append_of_mem hmemA, List.indexOf_append_of_mem hmemB]
      omega

/-- Instance of `build_command_task_flags` on a concrete snapshot disabling
every task, at the first two catalogue keys. -/
theorem build_command_task_flags_instance :
    (build_command "/opt" (fun _ => false) (fun _ => false)).count (noFlag "update") = 1 ∧
    (build_command "/opt" (fun _ => false) (fun _ => false)).indexOf (noFlag "update") <
      (build_command "/opt" (fun _ => false) (fun _ => false)).indexOf (noFlag "autoremove") := by
  have h := (build_command_task_flags "/opt" (fun _ => false) (fun _ => false)
    "update" (by decide)).2 rfl
  exact ⟨h.1, h.2 "autoremove" (by decide) (by decide) rfl⟩

/-- Claim C2: the option segment of the built vector follows exactly the
spec-side flag rule `optionFlagSpec` (literal table for the special keys,
dasherization for keys with the `perform_` prefix, nothing otherwise, nothing
for disabled options), one entry per enabled recognised option in catalogue
order; moreover the spelled flag of every enabled catalogue option does occur
in the vector. -/
theorem build_command_option_flags (dir : String) (tasks options : String → Bool) :
    (build_command dir tasks options =
      ["pkexec", scriptPath dir] ++ taskFlags tasks ++
        optionKeys.filterMap (fun k => if options k then optionFlagSpec k else none)) ∧
    (∀ k, k ∈ optionKeys → options k = true →
      ∀ fl, optionFlagSpec k = some fl → fl ∈ build_command dir tasks options) := by
  have hseg : optFlags options
      = optionKeys.filterMap (fun k => if options k then optionFlagSpec k else none) := by
    apply List.filterMap_congr
    intro x hx
    by_cases ho : options x
    · rw [if_pos ho, if_pos ho, optionFlag_eq_spec x hx]
    · rw [if_neg ho, if_neg ho]
  constructor
  · show ["pkexec", scriptPath dir] ++ taskFlags tasks ++ optFlags options = _
    rw [hseg]
  · intro k hk ho fl hfl
    have hmem : fl ∈ optFlags options := by
      rw [hseg]
      exact List.mem_filterMap.mpr ⟨k, hk, by rw [if_pos (by simp [ho]), hfl]⟩
    show fl ∈ ["pkexec", scriptPath dir] ++ taskFlags tasks ++ optFlags options
    exact List.mem_append_right _ hmem

/-- Instance of `build_command_option_flags`: with only `dry_run` enabled the
flag `--dry-run` occurs in the vector. -/
theorem build_command_option_flags_instance :
    "--dry-run" ∈ build_command "/opt" (fun _ => true) (fun k => k == "dry_run") := by
  exact (build_command_option_flags "/opt" (fun _ => true) (fun k => k == "dry_run")).2
    "dry_run" (by decide) rfl "--dry-run" rfl

/-- Claim C9: the snapshot that disables only `clean_journal` and sets no
option builds exactly `[pkexec, script, --no-clean-journal]`; and for every
snapshot the elevation program and the script path are the first two
elements. -/
theorem build_command_clean_journal_scenario (dir : String)
    (tasks options : String → Bool) :
    build_command dir (fun k => k != "clean_journal") (fun _ => false)
      = ["pkexec", scriptPath dir, "--no-clean-journal"] ∧
    (build_command dir tasks options).take 2 = ["pkexec", scriptPath dir] := by
  exact ⟨rfl, rfl⟩

/-- Claim C5: with no live process, a missing or non-executable script makes
`on_run_clicked` show a dialog that distinguishes the two causes and return
with the window state untouched: no spawn attempt is made (hence no elevation
prompt) and the run state stays idle. -/
theorem on_run_clicked_script_unavailable (env : Env) (st : GuiState)
    (h0 : st.processLive = false)
    (h1 : env.scriptExists = false ∨ env.scriptExecutable = false) :
    (on_run_clicked env st).1 = st ∧
    (env.scriptExists = false →
      (on_run_clicked env st).2 =
        [Effect.showErrorDialog "Error: Script not found"
          ("Cannot run: " ++ scriptPath env.dir)]) ∧
    (env.scriptExists = true →
      (on_run_clicked env st).2 =
        [Effect.showErrorDialog "Error: Script not executable"
          ("Cannot run: " ++ scriptPath env.dir)]) ∧
    (∀ c, Effect.spawnAttempt c ∉ (on_run_clicked env st).2) ∧
    (on_run_clicked env st).1.processLive = false := by
  cases hE : env.scriptExists with
  | false =>
    have heq : on_run_clicked env st =
        (st, [Effect.showErrorDialog "Error: Script not found"
          ("Cannot run: " ++ scriptPath env.dir)]) := by
      simp [on_run_clicked, h0, hE]
    refine ⟨by rw [heq], fun _ => by rw [heq], ?_, ?_, by rw [heq]; exact h0⟩
    · intro hc
      exact absurd hc (by simp)
    · intro c hc
      rw [heq] at hc
      simp at hc
  | true =>
    have hX : env.scriptExecutable = false := by
      rcases h1 with h | h
      · rw [hE] at h
        exact absurd h (by simp)
      · exact h
    have heq : on_run_clicked env st =
        (st, [Effect.showErrorDialog "Error: Script not executable"
          ("Cannot run: " ++ scriptPath env.dir)]) := by
      simp [on_run_clicked, h0, hE, hX]
    refine ⟨by rw [heq], ?_, fun _ => by rw [heq], ?_, by rw [heq]; exact h0⟩
    · intro hc
      exact absurd hc (by simp)
    · intro c hc
      rw [heq] at hc
      simp at hc

/-- Instance of `on_run_clicked_script_unavailable` at a concrete idle state
and an environment whose script is missing. -/
theorem on_run_clicked_script_unavailable_instance :
    (on_run_clicked
      { scriptExists := false, scriptExecutable := false, spawnSucceeds := true,
        dir := "/opt", tasks := fun _ => true, options := fun _ => false }
      { processLive := false, outputBuffer := [("old", Tag.stdoutTag)],
        controlsSensitive := true }).1
      = { processLive := false, outputBuffer := [("old", Tag.stdoutTag)],
          controlsSensitive := true } :=
  (on_run_clicked_script_unavailable _ _ rfl (Or.inl rfl)).1

/-- Claim C6: while a process handle is live, `on_run_clicked` only pushes an
advisory statusbar message: the state is unchanged and no spawn attempt, no
output chunk and no verdict is produced. -/
theorem on_run_clicked_already_running (env : Env) (st : GuiState)
    (h : st.processLive = true) :
    (on_run_clicked env st).1 = st ∧
    (on_run_clicked env st).2 = [Effect.statusbar "Maintenance is already running."] ∧
    (∀ c, Effect.spawnAttempt c ∉ (on_run_clicked env st).2) ∧
    (∀ t tag, Effect.appendChunk t tag ∉ (on_run_clicked env st).2) ∧
    (∀ b i, Effect.verdict b i ∉ (on_run_clicked env st).2) := by
  have heq : on_run_clicked env st =
      (st, [Effect.statusbar "Maintenance is already running."]) := by
    simp [on_run_clicked, h]
  refine ⟨by rw [heq], by rw [heq], ?_, ?_, ?_⟩
  · intro c hc
    rw [heq] at hc
    simp at hc
  · intro t tag hc
    rw [heq] at hc
    simp at hc
  · intro b i hc
    rw [heq] at hc
    simp at hc

/-- Instance of `on_run_clicked_already_running` at a concrete busy state. -/
theorem on_run_clicked_already_running_instance :
    (on_run_clicked
      { scriptExists := true, scriptExecutable := true, spawnSucceeds := true,
        dir := "/opt", tasks := fun _ => true, options := fun _ => false }
      { processLive := true, outputBuffer := [], controlsSensitive := false }).2
      = [Effect.statusbar "Maintenance is already running."] :=
  (on_run_clicked_already_running _ _ rfl).2.1

/-- Claim C7: when the preconditions pass but the spawn raises, the failure is
reported through the same `_finalize_run` verdict channel used for process
failures, as a failed verdict with the sentinel exit code `-1`; the spawn was
attempted, no process handle is left live, and the controls are re-enabled. -/
theorem on_run_clicked_spawn_failure_verdict (env : Env) (st : GuiState)
    (h0 : st.processLive = false) (h1 : env.scriptExists = true)
    (h2 : env.scriptExecutable = true) (h3 : env.spawnSucceeds = false) :
    Effect.verdict false (-1) ∈ (on_run_clicked env st).2 ∧
    (∃ pre, (on_run_clicked env st).2 = pre ++ (_finalize_run st false (-1)).2) ∧
    (∃ c, Effect.spawnAttempt c ∈ (on_run_clicked env st).2) ∧
    (on_run_clicked env st).1.processLive = false ∧
    (on_run_clicked env st).1.controlsSensitive = true := by
  refine ⟨?_, ⟨?_, ?_⟩, ⟨build_command env.dir env.tasks env.options, ?_⟩, ?_, ?_⟩
  · simp [on_run_clicked, h0, h1, h2, h3, _finalize_run]
  · exact [Effect.clearOutput, Effect.statusbar "Output cleared.",
      Effect.statusbar "Starting maintenance...",
      Effect.appendChunk (echoLine (build_command env.dir env.tasks env.options)) Tag.stdoutTag,
      Effect.setControls false,
      Effect.spawnAttempt (build_command env.dir env.tasks env.options),
      Effect.showErrorDialog "Error Starting Process"
        "Could not launch the maintenance script."]
  · simp [on_run_clicked, h0, h1, h2, h3, _finalize_run]
  · simp [on_run_clicked, h0, h1, h2, h3]
  · simp [on_run_clicked, h0, h1, h2, h3, _finalize_run]
  · simp [on_run_clicked, h0, h1, h2, h3, _finalize_run]

/-- Instance of `on_run_clicked_spawn_failure_verdict` at a concrete idle
state with a raising spawn. -/
theorem on_run_clicked_spawn_failure_verdict_instance :
    Effect.verdict false (-1) ∈
      (on_run_clicked
        { scriptExists := true, scriptExecutable := true, spawnSucceeds := false,
          dir := "/opt", tasks := fun _ => true, options := fun _ => false }
        { processLive := false, outputBuffer := [], controlsSensitive := true }).2 :=
  (on_run_clicked_spawn_failure_verdict _ _ rfl rfl rfl rfl).1

/-- Claim C10: a start request rejected by the busy check or the script checks
leaves the window state (output buffer, control sensitivity, process handle)
untouched and performs neither the output clearing nor the control locking;
conversely those two side effects only happen when every precondition check
has passed. -/
theorem on_run_clicked_rejection_frame (env : Env) (st : GuiState) :
    ((st.processLive = true ∨ env.scriptExists = false ∨ env.scriptExecutable = false) →
      (on_run_clicked env st).1 = st ∧
      Effect.clearOutput ∉ (on_run_clicked env st).2 ∧
      Effect.setControls false ∉ (on_run_clicked env st).2) ∧
    ((Effect.clearOutput ∈ (on_run_clicked env st).2 ∨
        Effect.setControls false ∈ (on_run_clicked env st).2) →
      st.processLive = false ∧ env.scriptExists = true ∧ env.scriptExecutable = true) := by
  cases hP : st.processLive <;> cases hE : env.scriptExists <;>
    cases hX : env.scriptExecutable <;> simp_all [on_run_clicked]

/-- Instance of `on_run_clicked_rejection_frame` at a concrete busy state. -/
theorem on_run_clicked_rejection_frame_instance :
    (on_run_clicked
      { scriptExists := true, scriptExecutable := true, spawnSucceeds := true,
        dir := "/opt", tasks := fun _ => true, options := fun _ => false }
      { processLive := true, outputBuffer := [("kept", Tag.stderrTag)],
        controlsSensitive := false }).1
      = { processLive := true, outputBuffer := [("kept", Tag.stderrTag)],
          controlsSensitive := false } :=
  ((on_run_clicked_rejection_frame _ _).1 (Or.inl rfl)).1

/-- Claim C8: the verdict computed by `process_finished` succeeds exactly on a
normal exit with code zero; on normal exit both variants pass the captured
exit code on, and on a signal termination the verdict fails, with src/main.py
passing the sentinel `-1` in place of an exit code. -/
theorem process_finished_verdict (s : Nat) :
    (process_finished_success s = true ↔ WIFEXITED s = true ∧ WEXITSTATUS s = 0) ∧
    (WIFEXITED s = true →
      process_finished_exitVal s = (WEXITSTATUS s : Int) ∧
      process_finished_exitVal_gui s = (WEXITSTATUS s : Int)) ∧
    (WIFEXITED s = false →
      process_finished_success s = false ∧ process_finished_exitVal s = -1) := by
  refine ⟨?_, ?_, ?_⟩
  · simp [process_finished_success]
  · intro h
    simp [process_finished_exitVal, process_finished_exitVal_gui, h]
  · intro h
    simp [process_finished_success, process_finished_exitVal, h]

/-- Instance of `process_finished_verdict` at status 256 (normal exit, code 1)
and status 9 (killed by signal 9). -/
theorem process_finished_verdict_instance :
    process_finished_exitVal 256 = (WEXITSTATUS 256 : Int) ∧
    process_finished_success 9 = false ∧ process_finished_exitVal 9 = -1 :=
  ⟨((process_finished_verdict 256).2.1 (by decide)).1,
   (process_finished_verdict 9).2.2 (by decide)⟩

theorem readLine_append : ∀ s : List Char, (readLine s).1 ++ (readLine s).2 = s := by
  intro s
  induction s with
  | nil => rfl
  | cons c rest ih =>
    simp only [readLine]
    by_cases h : c = '\n'
    · rw [if_pos h]
      rfl
    · rw [if_neg h]
      simp only [List.cons_append]
      rw [ih]

theorem stepChan_inv (c : ChanState) (e : ChanEvent) (h : ChanInv c) :
    ChanInv (stepChan c e) := by
  obtain ⟨h1, h2⟩ := h
  cases e with
  | write s =>
    by_cases hc : c.closed
    · simpa [stepChan, hc] using ⟨h1, h2⟩
    · simp only [stepChan, if_neg hc]
      constructor
      · simp only []
        rw [← List.append_assoc, h1]
      · intro hw
        exact absurd (h2 hw).2 hc
  | close =>
    refine ⟨h1, ?_⟩
    intro hw
    exact ⟨(h2 (by simpa [stepChan] using hw)).1, rfl⟩
  | poll =>
    simp only [stepChan]
    split_ifs with hw hie hic hnl
    · exact ⟨h1, h2⟩
    · exact ⟨h1, h2⟩
    · refine ⟨h1, ?_⟩
      intro _
      rw [Bool.and_eq_true] at hic
      exact ⟨List.isEmpty_iff.mp hic.1, hic.2⟩
    · exact ⟨h1, h2⟩
    · constructor
      · simp only [List.flatten_append, List.flatten_cons, List.flatten_nil,
          List.append_nil, List.append_assoc, readLine_append]
        exact h1
      · intro hwf
        exact absurd hwf hw

theorem chanInv_run (t : List ChanEvent) : ChanInv (runChan t) := by
  have key : ∀ (u : List ChanEvent) (c : ChanState), ChanInv c → ChanInv (u.foldl stepChan c) := by
    intro u
    induction u with
    | nil => intro c hc; exact hc
    | cons e u ih => intro c hc; exact ih _ (stepChan_inv c e hc)
  refine key t initChan ⟨rfl, ?_⟩
  intro h
  simp [initChan] at h

/-- Claim C3: for every history of writes, closure and watch dispatches of one
output channel, the chunks the polling stream reader (`handle_stream` of the
fedorable-gui variant) has delivered, concatenated in delivery order, followed
by the still-buffered bytes, reproduce exactly the bytes the process wrote to
that channel; and once the reader drops its watch the delivered chunks alone
reproduce the whole stream — nothing buffered at end-of-stream or hang-up is
abandoned.  (In src/main.py the wired reader is `communicate_utf8_async`,
which hands each channel's complete stream to
`_on_process_communication_finished` as a single chunk; see
`communicate_chunks_precede_verdict`.) -/
theorem handle_stream_round_trip (t : List ChanEvent) :
    (runChan t).delivered.flatten ++ (runChan t).pending = (runChan t).written ∧
    ((runChan t).watching = false →
      (runChan t).delivered.flatten = (runChan t).written) := by
  have h := chanInv_run t
  refine ⟨h.1, ?_⟩
  intro hw
  have hp := (h.2 hw).1
  rw [← h.1, hp, List.append_nil]

/-- Instance of `handle_stream_round_trip` on a concrete channel history that
ends with a drained pipe and a dropped watch. -/
theorem handle_stream_round_trip_instance :
    (runChan chanTrace0).delivered.flatten = (runChan chanTrace0).written :=
  (handle_stream_round_trip chanTrace0).2 (by decide)

theorem outputChunks_shape (s e : String) :
    (∀ x ∈ outputChunks s e, ∃ t tag, x = Effect.appendChunk t tag) ∧
    (∀ b i, Effect.verdict b i ∉ outputChunks s e) := by
  constructor
  · intro x hx
    simp only [outputChunks, List.mem_append] at hx
    rcases hx with h | h
    · split at h
      · simp at h
      · rw [List.mem_singleton] at h
        exact ⟨s, Tag.stdoutTag, h⟩
    · split at h
      · simp at h
      · rw [List.mem_singleton] at h
        exact ⟨e, Tag.stderrTag, h⟩
  · intro b i hx
    simp only [outputChunks, List.mem_append] at hx
    rcases hx with h | h <;> split at h <;> simp at h

/-- Claim C4, amended part: in src/main.py the completion callback receives
the two complete streams (the asynchronous communicate call returns only once
both have hit end-of-stream) and delivers every output chunk of the run before
the verdict: its effect sequence is exactly the output chunks followed by the
`_finalize_run` verdict and its rendering. -/
theorem communicate_chunks_precede_verdict (st : GuiState)
    (stdout_data stderr_data : String) (exitStatus : Int) :
    ∃ rest,
      (_on_process_communication_finished st stdout_data stderr_data exitStatus).2
        = outputChunks stdout_data stderr_data
            ++ Effect.verdict (exitStatus == 0) exitStatus :: rest ∧
      (∀ x ∈ outputChunks stdout_data stderr_data, ∃ t tag, x = Effect.appendChunk t tag) ∧
      (∀ b i, Effect.verdict b i ∉ outputChunks stdout_data stderr_data) := by
  cases hz : exitStatus == 0 with
  | true =>
    refine ⟨[Effect.statusbar "Maintenance finished successfully.",
      Effect.appendChunk "\n--- Maintenance Finished Successfully ---\n" Tag.stdoutTag,
      Effect.setControls true], ?_, (outputChunks_shape _ _).1, (outputChunks_shape _ _).2⟩
    simp [_on_process_communication_finished, _finalize_run, hz]
  | false =>
    refine ⟨[Effect.statusbar
        ("Maintenance failed (Exit Code: " ++ toString exitStatus ++ "). Check output."),
      Effect.appendChunk
        ("\n--- Maintenance Failed (Exit Code: " ++ toString exitStatus ++ ") ---\n")
        Tag.stderrTag,
      Effect.setControls true], ?_, (outputChunks_shape _ _).1, (outputChunks_shape _ _).2⟩
    simp [_on_process_communication_finished, _finalize_run, hz]

/-- Instance of `communicate_chunks_precede_verdict` at a concrete state and
concrete stream contents. -/
theorem communicate_chunks_precede_verdict_instance :
    ∃ rest,
      (_on_process_communication_finished
          { processLive := true, outputBuffer := [], controlsSensitive := false }
          "out" "err" 0).2
        = outputChunks "out" "err" ++ Effect.verdict ((0 : Int) == 0) 0 :: rest ∧
      (∀ x ∈ outputChunks "out" "err", ∃ t tag, x = Effect.appendChunk t tag) ∧
      (∀ b i, Effect.verdict b i ∉ outputChunks "out" "err") :=
  communicate_chunks_precede_verdict _ "out" "err" 0

/-- Counterexample to claim C4 as stated: in the fedorable-gui variant the
child watch fires as soon as the process has exited, without waiting for the
stream watch to drain the pipe.  Starting from a child that exited with
status 0 while the two lines `a\n` and `b\n` were still buffered, the main
loop delivers the verdict to the sink before the chunk `b\n`, even though the
stream is later fully drained. -/
theorem gui_verdict_before_buffered_chunk :
    (runLoop 10 cexStart).sink
      = [Effect.appendChunk "a\n" Tag.stdoutTag, Effect.verdict true 0,
         Effect.appendChunk "b\n" Tag.stdoutTag] ∧
    (runLoop 10 cexStart).sink.indexOf (Effect.verdict true 0) <
      (runLoop 10 cexStart).sink.indexOf (Effect.appendChunk "b\n" Tag.stdoutTag) ∧
    (runLoop 10 cexStart).pending = [] ∧
    (runLoop 10 cexStart).streamWatch = false := by
  refine ⟨?_, ?_, ?_, ?_⟩ <;> decide
